import Mathlib

/-!
Shallow embedding of the cord19q ETL pipeline
(src/python/cord19q/etl/execute.py) together with theorems checking the
specification of that module against the embedded code.

Conventions used throughout:
* csv.DictReader field values are strings; a missing/empty field is `""`,
  and Python truthiness of a string is `s ≠ ""`.
* A Python function that can raise is embedded with `Except`, where
  `.error` models an uncaught exception.
* Machine integers are `Nat` with explicit reduction `% 2 ^ 32` where the
  source (SHA-1) works with 32-bit words.
-/

namespace Cord19

deriving instance DecidableEq for Except

/-- One metadata.csv row as produced by csv.DictReader: every field the
pipeline reads is a string; absent fields are the empty string. -/
structure MetaRow where
  sha : String
  source_x : String
  publish_time : String
  journal : String
  authors : String
  title : String
  doi : String
  deriving DecidableEq, Repr

/-- Python substring test `needle in hay` over character lists. -/
def containsSub (needle : List Char) : List Char → Bool
  | [] => needle.isEmpty
  | c :: t => needle.isPrefixOf (c :: t) || containsSub needle t

/-- Python `str.lower()` (ASCII range, which covers every string compared
by this pipeline: the keyword markers are ASCII). -/
def pyLower (s : String) : String := String.mk (s.data.map Char.toLower)

/-- Python `str.isdigit()`: non-empty and every character a decimal digit. -/
def pyIsDigit (s : String) : Bool := !s.data.isEmpty && s.data.all Char.isDigit

/-- Python `str.startswith(p)`. -/
def pyStartsWith (s p : String) : Bool := p.data.isPrefixOf s.data

/-- Split a character list at every occurrence of a separator character
(`str.split(sep)` semantics for a one-character separator). -/
def splitOnChar (sep : Char) : List Char → List (List Char)
  | [] => [[]]
  | c :: t =>
    match splitOnChar sep t with
    | [] => [[c]]
    | h :: rest => if c = sep then [] :: h :: rest else (c :: h) :: rest

/-- Decimal value of an all-digit character list. -/
def digitsToNat (cs : List Char) : Nat := cs.foldl (fun n c => 10 * n + (c.toNat - 48)) 0

/-- Python `"sep".join(parts)` semantics. -/
def joinSep (sep : String) : List String → String
  | [] => ""
  | [x] => x
  | x :: xs => x ++ sep ++ joinSep sep xs

/-- Python regex whitespace class over ASCII: space, tab, LF, VT, FF, CR. -/
def pySpace (c : Char) : Bool :=
  c = ' ' || c = '\t' || c = '\n' || c = '\r' || c.toNat = 11 || c.toNat = 12

/-- Strip leading and trailing whitespace from a character list. -/
def trimChars (cs : List Char) : List Char :=
  ((cs.dropWhile pySpace).reverse.dropWhile pySpace).reverse

/-- String version of `trimChars`. -/
def pyTrim (s : String) : String := String.mk (trimChars s.data)

/-! ### SHA-1 (hashlib.sha1), over byte lists, words as `Nat % 2 ^ 32` -/

/-- Truncate to a 32-bit word. -/
def w32 (n : Nat) : Nat := n % 4294967296

/-- Rotate a 32-bit word left by `b` bits. -/
def rotl (b n : Nat) : Nat := w32 (n <<< b) + (n >>> (32 - b))

/-- SHA-1 round function (choice / parity / majority by round index). -/
def sha1F (t b c d : Nat) : Nat :=
  if t < 20 then (b &&& c) ||| ((b ^^^ 4294967295) &&& d)
  else if t < 40 then b ^^^ c ^^^ d
  else if t < 60 then (b &&& c) ||| (b &&& d) ||| (c &&& d)
  else b ^^^ c ^^^ d

/-- SHA-1 round constants. -/
def sha1K (t : Nat) : Nat :=
  if t < 20 then 0x5A827999
  else if t < 40 then 0x6ED9EBA1
  else if t < 60 then 0x8F1BBCDC
  else 0xCA62C1D6

/-- Big-endian packing of bytes into 32-bit words. -/
def toWords : List Nat → List Nat
  | b0 :: b1 :: b2 :: b3 :: rest =>
    (((b0 * 256 + b1) * 256 + b2) * 256 + b3) :: toWords rest
  | _ => []

/-- Extend the 16-word schedule by `k` further words. -/
def extendW (ws : List Nat) : Nat → List Nat
  | 0 => ws
  | k + 1 =>
    let t := ws.length
    extendW
      (ws ++ [rotl 1 (ws.getD (t - 3) 0 ^^^ ws.getD (t - 8) 0 ^^^
                      ws.getD (t - 14) 0 ^^^ ws.getD (t - 16) 0)]) k

/-- The 80 SHA-1 rounds over the schedule, threading the five-word state. -/
def sha1Rounds : List Nat → Nat → Nat × Nat × Nat × Nat × Nat → Nat × Nat × Nat × Nat × Nat
  | [], _, st => st
  | w :: ws, t, (a, b, c, d, e) =>
    sha1Rounds ws (t + 1) (w32 (rotl 5 a + sha1F t b c d + e + sha1K t + w), a, rotl 30 b, c, d)

/-- Compress one 64-byte block into the chaining state. -/
def sha1Block (h : Nat × Nat × Nat × Nat × Nat) (block : List Nat) :
    Nat × Nat × Nat × Nat × Nat :=
  match h, sha1Rounds (extendW (toWords block) 64) 0 h with
  | (h0, h1, h2, h3, h4), (a, b, c, d, e) =>
    (w32 (h0 + a), w32 (h1 + b), w32 (h2 + c), w32 (h3 + d), w32 (h4 + e))

/-- Fold the compression function over `k` consecutive 64-byte blocks. -/
def sha1Blocks (h : Nat × Nat × Nat × Nat × Nat) (bytes : List Nat) : Nat → Nat × Nat × Nat × Nat × Nat
  | 0 => h
  | k + 1 => sha1Blocks (sha1Block h (bytes.take 64)) (bytes.drop 64) k

/-- 64-bit big-endian byte encoding of the message bit length. -/
def be64 (n : Nat) : List Nat :=
  [(n >>> 56) % 256, (n >>> 48) % 256, (n >>> 40) % 256, (n >>> 32) % 256,
   (n >>> 24) % 256, (n >>> 16) % 256, (n >>> 8) % 256, n % 256]

/-- Standard SHA-1 padding: 0x80, zeros to 56 mod 64, 8-byte bit length. -/
def sha1Pad (msg : List Nat) : List Nat :=
  msg ++ 128 :: (List.replicate ((119 - msg.length % 64) % 64) 0 ++ be64 (8 * msg.length))

/-- Lower-case hexadecimal digit. -/
def hexDigit (n : Nat) : Char := if n < 10 then Char.ofNat (48 + n) else Char.ofNat (87 + n)

/-- Eight-character lower-case hex rendering of a 32-bit word. -/
def toHex8 (n : Nat) : List Char :=
  (List.range 8).map (fun i => hexDigit ((n >>> (28 - 4 * i)) % 16))

/-- `hashlib.sha1(bytes).hexdigest()`: 40 lower-case hex characters. -/
def sha1Hex (msg : List Nat) : String :=
  match sha1Blocks (0x67452301, 0xEFCDAB89, 0x98BADCFE, 0x10325476, 0xC3D2E1F0)
      (sha1Pad msg) ((sha1Pad msg).length / 64) with
  | (h0, h1, h2, h3, h4) =>
    String.mk (toHex8 h0 ++ toHex8 h1 ++ toHex8 h2 ++ toHex8 h3 ++ toHex8 h4)

/-- UTF-8 encoding of one character (str.encode("utf-8"), per code point). -/
def utf8Char (c : Char) : List Nat :=
  let n := c.toNat
  if n < 128 then [n]
  else if n < 2048 then [192 ||| (n >>> 6), 128 ||| (n &&& 63)]
  else if n < 65536 then
    [224 ||| (n >>> 12), 128 ||| ((n >>> 6) &&& 63), 128 ||| (n &&& 63)]
  else
    [240 ||| (n >>> 18), 128 ||| ((n >>> 12) &&& 63), 128 ||| ((n >>> 6) &&& 63), 128 ||| (n &&& 63)]

/-- UTF-8 encoding of a string as a byte list. -/
def utf8 (s : String) : List Nat := (s.data.map utf8Char).flatten

/-- getId from execute.py: `uid = row["sha"]; if not uid: uid =
hashlib.sha1(row["title"].encode("utf-8")).hexdigest(); return uid`. -/
def getId (row : MetaRow) : String :=
  if row.sha ≠ "" then row.sha else sha1Hex (utf8 row.title)

/-! ### Dates (getDate) -/

/-- A calendar date, the part of a parsed datetime this pipeline stores. -/
structure Date where
  year : Nat
  month : Nat
  day : Nat
  deriving DecidableEq, Repr

/-- Modelled from the spec: the external free-form date parser
(dateutil.parser.parse), which is not part of this repository.  The spec
only relies on it parsing ISO `YYYY-MM-DD` strings (the shape produced by
year widening) and raising on unparsable input such as `"not-a-date"`;
the model accepts exactly all-digit `Y-M-D` strings with a plausible
month and day, and raises (`.error`) on everything else. -/
def parseDateutilE (s : String) : Except Unit Date :=
  match splitOnChar '-' s.data with
  | [y, m, d] =>
    if pyIsDigit (String.mk y) && pyIsDigit (String.mk m) && pyIsDigit (String.mk d) then
      let mn := digitsToNat m
      let dn := digitsToNat d
      if 1 ≤ mn && mn ≤ 12 && 1 ≤ dn && dn ≤ 31 then
        .ok ⟨digitsToNat y, mn, dn⟩
      else .error ()
    else .error ()
  | _ => .error ()

/-- The year-widening step of getDate: a bare all-digit 4-character string
has "-01-01" appended before parsing. -/
def widen (s : String) : String :=
  if pyIsDigit s && s.length == 4 then s ++ "-01-01" else s

/-- getDate from execute.py on the publish_time string: empty gives no
date; otherwise widen a bare year then parse, with any parse exception
caught and turned into no date. -/
def getDateStr (s : String) : Option Date :=
  if s ≠ "" then
    match parseDateutilE (widen s) with
    | .ok d => some d
    | .error _ => none
  else none

/-- getDate from execute.py. -/
def getDate (row : MetaRow) : Option Date := getDateStr row.publish_time

/-! ### Authors (getAuthors) -/

/-- The single-quote character, written by code point. -/
def quoteChar : Char := Char.ofNat 39

/-- Walks the segments of a split on single quotes: segments at odd
positions that are followed by a closing quote are the matched groups. -/
def pairContents : List String → List String
  | _ :: s1 :: s2 :: rest => pyTrim s1 :: pairContents (s2 :: rest)
  | _ => []

/-- re.findall of the quoted-substring pattern used by getAuthors: each
non-overlapping match spans from one single quote to the next, and the
captured group is the enclosed text with surrounding whitespace stripped
(the pattern anchors both quotes and strips whitespace inside them). -/
def findQuoted (s : String) : List String :=
  pairContents ((splitOnChar quoteChar s.data).map String.mk)

/-- getAuthors from execute.py: when the field is truthy and contains the
character "[", rejoin the quoted substrings with "; "; otherwise return
the raw field. -/
def getAuthors (row : MetaRow) : String :=
  let a := row.authors
  if a ≠ "" && containsSub "[".data a.data then
    joinSep "; " (findQuoted a)
  else a

/-! ### Tags (getTags) -/

/-- The fixed keyword markers of getTags. -/
def keywords : List String := ["2019-ncov", "covid-19", "sars-cov-2"]

/-- One section text matches when some keyword occurs in its lower-cased
form (`x in text.lower()`). -/
def matchesKeyword (text : String) : Bool :=
  keywords.any (fun x => containsSub x.data (pyLower text).data)

/-- getTags from execute.py: fold over the section texts, setting the tag
to "COVID-19" whenever a section matches some keyword. -/
def getTags (sections : List String) : Option String :=
  sections.foldl (fun tags text => if matchesKeyword text then some "COVID-19" else tags) none

/-! ### Reference (getReference) -/

/-- getReference from execute.py: prefix a bare DOI with the resolver
URL; strings that are empty or already start with "http" or "doi.org"
pass through. -/
def getReference (row : MetaRow) : String :=
  let text := row.doi
  if text ≠ "" && !pyStartsWith text "http" && !pyStartsWith text "doi.org" then
    "https://doi.org/" ++ text
  else text

/-! ### Row type coercion (values) -/

/-- A Python value on its way into the database: the kinds of values this
pipeline passes to insert (strings, ints, parsed dates, None). -/
inductive Value
  | vint : Int → Value
  | vstr : String → Value
  | vdate : Date → Value
  | vnull : Value
  deriving DecidableEq, Repr

/-- Python truthiness of a `Value`. -/
def truthy : Value → Bool
  | .vint n => n ≠ 0
  | .vstr s => s ≠ ""
  | .vdate _ => true
  | .vnull => false

/-- Python `int(str)` on a stripped decimal string with optional sign;
anything else raises. -/
def pyIntOfStr (s : String) : Except Unit Int :=
  match trimChars s.data with
  | [] => .error ()
  | c :: rest =>
    if c = '-' then
      if !rest.isEmpty && rest.all Char.isDigit then .ok (-(digitsToNat rest : Int))
      else .error ()
    else if c = '+' then
      if !rest.isEmpty && rest.all Char.isDigit then .ok (digitsToNat rest : Int)
      else .error ()
    else
      if (c :: rest).all Char.isDigit then .ok (digitsToNat (c :: rest) : Int)
      else .error ()

/-- Python `int(value)`: identity on ints, decimal parse on strings,
raises on None and dates. -/
def pyIntConv : Value → Except Unit Int
  | .vint n => .ok n
  | .vstr s => pyIntOfStr s
  | .vdate _ => .error ()
  | .vnull => .error ()

/-- Python dict access `table[column]`: raises KeyError when absent. -/
def lookupD : List (String × String) → String → Except Unit String
  | [], _ => .error ()
  | (k, v) :: t, c => if k = c then .ok v else lookupD t c

/-- The body of the values loop for one column: INTEGER-prefixed columns
coerce falsy values to 0 and otherwise apply int(); BOOLEAN columns
compare against the literal string "TRUE"; everything else passes
through. -/
def coerceVal (desc : String) (v : Value) : Except Unit Value :=
  if pyStartsWith desc "INTEGER" then
    if truthy v then
      match pyIntConv v with
      | .ok n => .ok (.vint n)
      | .error e => .error e
    else .ok (.vint 0)
  else if desc = "BOOLEAN" then
    .ok (.vint (if v = .vstr "TRUE" then 1 else 0))
  else .ok v

/-- values from execute.py: `for x, column in enumerate(columns)` with
`value = row[x]`; indexing past the end of the row raises, a missing
schema key raises, a failed int() raises, and any such exception aborts
the whole call. -/
def values (table : List (String × String)) : List Value → List String → Except Unit (List Value)
  | _, [] => .ok []
  | [], _ :: _ => .error ()
  | v :: vs, c :: cs =>
    match lookupD table c with
    | .error e => .error e
    | .ok desc =>
      match coerceVal desc v with
      | .error e => .error e
      | .ok w =>
        match values table vs cs with
        | .error e => .error e
        | .ok ws => .ok (w :: ws)

/-! ### Table creation (create) -/

/-- A Python value reachable inside create's except handler: a string or
an exception object. -/
inductive PyVal
  | pstr : String → PyVal
  | pexc : String → PyVal
  deriving DecidableEq, Repr

/-- The Python exception kinds this model distinguishes. -/
inductive PyExc
  | typeError
  deriving DecidableEq, Repr

/-- Python `+` on the operand kinds occurring in create: str + str
concatenates, while str + Exception raises TypeError. -/
def pyStrAdd : PyVal → PyVal → Except PyExc PyVal
  | .pstr a, .pstr b => .ok (.pstr (a ++ b))
  | _, _ => .error .typeError

/-- The CREATE statement built by create: CREATE_TABLE with the
column-name/column-type pairs joined by ", ". -/
def createStmt (table : List (String × String)) (name : String) : String :=
  "CREATE TABLE IF NOT EXISTS " ++ name ++ " (" ++
    joinSep ", " (table.map (fun p => p.1 ++ " " ++ p.2)) ++ ")"

/-- create from execute.py, over an abstract db.execute.  Returns the
lines printed and, when the handler itself raised, the escaping
exception: on execute failure the statement is printed and then
`"Failed to create table: " + e` is evaluated with `e` the exception
object. -/
def create (execDb : String → Except String Unit) (table : List (String × String))
    (name : String) : List String × Option PyExc :=
  let stmt := createStmt table name
  match execDb stmt with
  | .ok _ => ([], none)
  | .error e =>
    match pyStrAdd (.pstr "Failed to create table: ") (.pexc e) with
    | .ok v => ([stmt, match v with | .pstr s => s | .pexc s => s], none)
    | .error ex => ([stmt], some ex)

/-! ### Side-car files (read) -/

/-- The observable content of a side-car JSON file: either json.load (or
the body_text extraction) raises, or it yields the body texts in document
order. -/
inductive SideCar
  | malformed : SideCar
  | doc : List String → SideCar
  deriving DecidableEq, Repr

/-- os.path.join(directory, "articles", uid + ".json"). -/
def articlePath (dir uid : String) : String := dir ++ "/articles/" ++ uid ++ ".json"

/-- A file system: maps a path to the side-car stored there, if any. -/
def FileSys := String → Option SideCar

/-- read from execute.py: empty uid or missing file give the empty list;
an existing file is parsed, and a parse failure is an uncaught exception
(there is no try/except in read). -/
def read (fs : FileSys) (dir uid : String) : Except Unit (List String) :=
  if uid ≠ "" then
    match fs (articlePath dir uid) with
    | none => .ok []
    | some .malformed => .error ()
    | some (.doc texts) => .ok texts
  else .ok []

/-! ### The run loop and its database state -/

/-- One row of the articles table, in schema order. -/
structure ArticleRow where
  Id : String
  Source : String
  Published : Option Date
  Publication : String
  Authors : String
  Title : String
  Tags : Option String
  Reference : String
  deriving DecidableEq, Repr

/-- One row of the sections table, in schema order. -/
structure SectionRow where
  Id : Nat
  Article : String
  Text : String
  Tags : Option String
  deriving DecidableEq, Repr

/-- One successful insert, in store insertion order. -/
inductive Event
  | art : ArticleRow → Event
  | sec : SectionRow → Event
  deriving DecidableEq, Repr

/-- The mutable state of a run: the rows inserted so far (in order) and
the global section-id counter sid. -/
structure DBState where
  events : List Event
  sid : Nat
  deriving DecidableEq, Repr

/-- The article rows among the events, in insertion order. -/
def artRows (evs : List Event) : List ArticleRow :=
  evs.filterMap (fun e => match e with | .art a => some a | _ => none)

/-- The section rows among the events, in insertion order. -/
def secRows (evs : List Event) : List SectionRow :=
  evs.filterMap (fun e => match e with | .sec s => some s | _ => none)

/-- The ids of the article rows inserted so far. -/
def artIds (evs : List Event) : List String := (artRows evs).map ArticleRow.Id

/-- insert into articles: the store's TEXT PRIMARY KEY rejects a
duplicate id; insert catches the exception and leaves the store
unchanged, so a failed insert only skips the row. -/
def insertArticle (st : DBState) (a : ArticleRow) : DBState :=
  if a.Id ∈ artIds st.events then st else ⟨st.events ++ [.art a], st.sid⟩

/-- The loop `for text in sections: insert(...); sid += 1`: section ids
are fresh (nothing else writes sid values), so every insert succeeds. -/
def insertSections (st : DBState) (uid : String) (tags : Option String) : List String → DBState
  | [] => st
  | t :: ts =>
    insertSections ⟨st.events ++ [Event.sec ⟨st.sid, uid, t, tags⟩], st.sid + 1⟩ uid tags ts

/-- The body texts read for a uid, with a failed read seen as none. -/
def bodyTexts (fs : FileSys) (dir uid : String) : List String :=
  match read fs dir uid with
  | .ok l => l
  | .error _ => []

/-- `sections = [row["title"]] + read(directory, uid)`. -/
def rowTexts (fs : FileSys) (dir : String) (r : MetaRow) : List String :=
  r.title :: bodyTexts fs dir (getId r)

/-- The (article id, text) pairs of the section rows a metadata row
produces, title first then body in document order. -/
def rowSecs (fs : FileSys) (dir : String) (r : MetaRow) : List (String × String) :=
  (rowTexts fs dir r).map (fun t => (getId r, t))

/-- The articles-table tuple built for a metadata row. -/
def mkArticle (fs : FileSys) (dir : String) (r : MetaRow) : ArticleRow :=
  ⟨getId r, r.source_x, getDate r, r.journal, getAuthors r, r.title,
   getTags (rowTexts fs dir r), getReference r⟩

/-- The body of the run loop for one metadata row: resolve the id, read
the side-car (an exception here aborts the run), gather sections, tag
them, insert the article row then each section row. -/
def step (fs : FileSys) (dir : String) (st : DBState) (r : MetaRow) : Except Unit DBState :=
  match read fs dir (getId r) with
  | .error e => .error e
  | .ok body =>
    let uid := getId r
    let sections := r.title :: body
    let tags := getTags sections
    let st1 := insertArticle st
      ⟨uid, r.source_x, getDate r, r.journal, getAuthors r, r.title, tags, getReference r⟩
    .ok (insertSections st1 uid tags sections)

/-- The run loop over the metadata rows from a given state. -/
def runRows (fs : FileSys) (dir : String) : DBState → List MetaRow → Except Unit DBState
  | st, [] => .ok st
  | st, r :: rs =>
    match step fs dir st r with
    | .error e => .error e
    | .ok st1 => runRows fs dir st1 rs

/-- run from execute.py, starting from the fresh store (the prior file is
deleted) with sid = 0. -/
def run (fs : FileSys) (dir : String) (rows : List MetaRow) : Except Unit DBState :=
  runRows fs dir ⟨[], 0⟩ rows

/-! ### Derived notions used to state the claims -/

/-- The tag column of an inserted row, for either table. -/
def eventTags : Event → Option String
  | .art a => a.Tags
  | .sec s => s.Tags

/-- The section-insert events one pass of the inner loop appends, with
consecutive ids from `sid`. -/
def mkSecEvents (sid : Nat) (uid : String) (tags : Option String) : List String → List Event
  | [] => []
  | t :: ts => Event.sec ⟨sid, uid, t, tags⟩ :: mkSecEvents (sid + 1) uid tags ts

/-- The section rows one pass of the inner loop inserts. -/
def mkSecs (sid : Nat) (uid : String) (tags : Option String) : List String → List SectionRow
  | [] => []
  | t :: ts => ⟨sid, uid, t, tags⟩ :: mkSecs (sid + 1) uid tags ts

/-- Every event one loop iteration appends to the store: the article row
(unless its id collides with an already-written article row, in which
case the caught insert failure leaves no article row) followed by all
its section rows. -/
def stepEvents (fs : FileSys) (dir : String) (st : DBState) (r : MetaRow) : List Event :=
  (if getId r ∈ artIds st.events then [] else [Event.art (mkArticle fs dir r)]) ++
    mkSecEvents st.sid (getId r) (getTags (rowTexts fs dir r)) (rowTexts fs dir r)

/-- The section rows a row list contributes, ids counting on from `sid`. -/
def secsFrom (fs : FileSys) (dir : String) : Nat → List MetaRow → List SectionRow
  | _, [] => []
  | sid, r :: rs =>
    mkSecs sid (getId r) (getTags (rowTexts fs dir r)) (rowTexts fs dir r) ++
      secsFrom fs dir (sid + (rowTexts fs dir r).length) rs

/-- Total number of section rows a row list produces. -/
def sumTexts (fs : FileSys) (dir : String) (rows : List MetaRow) : Nat :=
  (rows.map (fun r => (rowTexts fs dir r).length)).sum

/-- Referential integrity of the event list: every section-insert is
preceded by an article-insert whose id it references. -/
def refOK (evs : List Event) : Prop :=
  ∀ (i : Nat) (s : SectionRow), evs[i]? = some (Event.sec s) →
    ∃ (j : Nat) (a : ArticleRow), j < i ∧ evs[j]? = some (Event.art a) ∧ a.Id = s.Article

/-- The articles schema of execute.py, in declaration order. -/
def ARTICLES : List (String × String) :=
  [("Id", "TEXT PRIMARY KEY"), ("Source", "TEXT"), ("Published", "DATETIME"),
   ("Publication", "TEXT"), ("Authors", "TEXT"), ("Title", "TEXT"),
   ("Tags", "TEXT"), ("Reference", "TEXT")]

/-- The sections schema of execute.py, in declaration order. -/
def SECTIONS : List (String × String) :=
  [("Id", "INTEGER PRIMARY KEY"), ("Article", "TEXT"), ("Text", "TEXT"), ("Tags", "TEXT")]

/-- The tags value as bound to a database parameter: None or a string. -/
def valueOfTags : Option String → Value
  | none => .vnull
  | some s => .vstr s

/-! ### Concrete fixtures used by witnesses and counterexamples -/

/-- A single-quote string, built from the code point to keep source free
of quote characters. -/
def quoteStr : String := String.mk [quoteChar]

/-- The serialized author list of the spec example. -/
def authorsEx : String :=
  "[" ++ quoteStr ++ "Smith, J." ++ quoteStr ++ ", " ++ quoteStr ++ "Doe, A." ++ quoteStr ++ "]"

/-- Corpus for the end-to-end witness: one side-car with two paragraphs. -/
def fsW : FileSys :=
  fun p => if p = "corpus/articles/sha2y.json" then some (SideCar.doc ["B1", "B2"]) else none

/-- First witness metadata row: explicit sha, year-only date. -/
def rowW1 : MetaRow := ⟨"sha1x", "src", "2020", "J", "", "Title One", ""⟩

/-- Second witness metadata row: explicit sha with a side-car file. -/
def rowW2 : MetaRow := ⟨"sha2y", "", "", "", "", "T2", ""⟩

/-- Corpus whose only side-car file is malformed. -/
def fsBad : FileSys :=
  fun p => if p = "d/articles/s1.json" then some SideCar.malformed else none

/-- Metadata row whose side-car in `fsBad` is malformed. -/
def rowBad : MetaRow := ⟨"s1", "", "", "", "", "T1", ""⟩

/-- A following, perfectly fine metadata row. -/
def rowGood : MetaRow := ⟨"s2", "", "", "", "", "T2", ""⟩

/-- Metadata row whose title carries a keyword marker. -/
def rowTag : MetaRow := ⟨"s4", "", "", "", "", "A Covid-19 study", ""⟩

/-- Two metadata rows resolving to the same article id. -/
def rowDup1 : MetaRow := ⟨"dup", "", "", "", "", "T1", ""⟩

/-- Second metadata row with the colliding id. -/
def rowDup2 : MetaRow := ⟨"dup", "", "", "", "", "T2", ""⟩

/-- The store state the end-to-end witness run produces. -/
def stW : DBState :=
  ⟨[Event.art ⟨"sha1x", "src", some ⟨2020, 1, 1⟩, "J", "", "Title One", none, ""⟩,
    Event.sec ⟨0, "sha1x", "Title One", none⟩,
    Event.art ⟨"sha2y", "", none, "", "", "T2", none, ""⟩,
    Event.sec ⟨1, "sha2y", "T2", none⟩,
    Event.sec ⟨2, "sha2y", "B1", none⟩,
    Event.sec ⟨3, "sha2y", "B2", none⟩], 4⟩

/-- The store state after processing the tagged row alone. -/
def stTag : DBState :=
  ⟨[Event.art ⟨"s4", "", none, "", "", "A Covid-19 study", some "COVID-19", ""⟩,
    Event.sec ⟨0, "s4", "A Covid-19 study", some "COVID-19"⟩], 1⟩

/-- The store state after processing the two colliding rows. -/
def stDup : DBState :=
  ⟨[Event.art ⟨"dup", "", none, "", "", "T1", none, ""⟩,
    Event.sec ⟨0, "dup", "T1", none⟩,
    Event.sec ⟨1, "dup", "T2", none⟩], 2⟩

/-! ## Theorems -/

/-! ### Store-model helper lemmas -/

theorem secRows_nil : secRows [] = [] := rfl

theorem secRows_cons_article (a : ArticleRow) (evs : List Event) :
    secRows (Event.art a :: evs) = secRows evs := rfl

theorem secRows_cons_section (s : SectionRow) (evs : List Event) :
    secRows (Event.sec s :: evs) = s :: secRows evs := rfl

theorem secRows_append (xs ys : List Event) :
    secRows (xs ++ ys) = secRows xs ++ secRows ys := by
  simp [secRows]

theorem artRows_nil : artRows [] = [] := rfl

theorem artRows_cons_article (a : ArticleRow) (evs : List Event) :
    artRows (Event.art a :: evs) = a :: artRows evs := rfl

theorem artRows_cons_section (s : SectionRow) (evs : List Event) :
    artRows (Event.sec s :: evs) = artRows evs := rfl

theorem artRows_append (xs ys : List Event) :
    artRows (xs ++ ys) = artRows xs ++ artRows ys := by
  simp [artRows]

theorem artIds_append (xs ys : List Event) :
    artIds (xs ++ ys) = artIds xs ++ artIds ys := by
  simp [artIds, artRows_append]

theorem insertArticle_sid (st : DBState) (a : ArticleRow) :
    (insertArticle st a).sid = st.sid := by
  unfold insertArticle; split <;> rfl

theorem insertArticle_events (st : DBState) (a : ArticleRow) :
    (insertArticle st a).events =
      st.events ++ (if a.Id ∈ artIds st.events then [] else [Event.art a]) := by
  unfold insertArticle; split <;> simp

theorem secRows_insertArticle (st : DBState) (a : ArticleRow) :
    secRows (insertArticle st a).events = secRows st.events := by
  rw [insertArticle_events, secRows_append]
  split <;> simp [secRows]

theorem insertSections_eq (uid : String) (tags : Option String) (ts : List String) :
    ∀ st : DBState,
      insertSections st uid tags ts = ⟨st.events ++ mkSecEvents st.sid uid tags ts, st.sid + ts.length⟩ := by
  induction ts with
  | nil => intro st; simp [insertSections, mkSecEvents]
  | cons t ts ih =>
    intro st
    rw [insertSections, ih]
    simp [mkSecEvents]
    omega

theorem secRows_mkSecEvents (uid : String) (tags : Option String) (ts : List String) :
    ∀ sid : Nat, secRows (mkSecEvents sid uid tags ts) = mkSecs sid uid tags ts := by
  induction ts with
  | nil => intro sid; rfl
  | cons t ts ih => intro sid; simp [mkSecEvents, mkSecs, secRows_cons_section, ih]

theorem artRows_mkSecEvents (uid : String) (tags : Option String) (ts : List String) :
    ∀ sid : Nat, artRows (mkSecEvents sid uid tags ts) = [] := by
  induction ts with
  | nil => intro sid; rfl
  | cons t ts ih => intro sid; simp [mkSecEvents, artRows_cons_section, ih]

theorem mkSecs_map_id (uid : String) (tags : Option String) (ts : List String) :
    ∀ sid : Nat, (mkSecs sid uid tags ts).map SectionRow.Id = List.range' sid ts.length := by
  induction ts with
  | nil => intro sid; rfl
  | cons t ts ih => intro sid; simp [mkSecs, List.range'_succ, ih]

theorem mkSecs_map_pair (uid : String) (tags : Option String) (ts : List String) :
    ∀ sid : Nat, (mkSecs sid uid tags ts).map (fun s => (s.Article, s.Text)) =
      ts.map (fun t => (uid, t)) := by
  induction ts with
  | nil => intro sid; rfl
  | cons t ts ih => intro sid; simp [mkSecs, ih]

theorem mkSecEvents_all_tags (uid : String) (tags : Option String) (ts : List String) :
    ∀ sid : Nat, (mkSecEvents sid uid tags ts).all (fun e => eventTags e == tags) = true := by
  induction ts with
  | nil => intro sid; rfl
  | cons t ts ih =>
    intro sid
    have h := ih (sid + 1)
    simp [mkSecEvents, eventTags] at h ⊢
    exact h

theorem sec_mem_mkSecEvents (uid : String) (tags : Option String) (ts : List String)
    (s : SectionRow) :
    ∀ sid : Nat, Event.sec s ∈ mkSecEvents sid uid tags ts → s.Article = uid := by
  induction ts with
  | nil => intro sid h; simp [mkSecEvents] at h
  | cons t ts ih =>
    intro sid h
    simp only [mkSecEvents, List.mem_cons] at h
    cases h with
    | inl h => cases congrArg (fun e => match e with | Event.sec s => s.Article | _ => "") h
               rfl
    | inr h => exact ih (sid + 1) h

/-! ### getTags characterization -/

theorem getTags_foldl (l : List String) :
    ∀ acc : Option String,
      l.foldl (fun tags text => if matchesKeyword text then some "COVID-19" else tags) acc =
        if l.any matchesKeyword then some "COVID-19" else acc := by
  induction l with
  | nil => intro acc; rfl
  | cons x xs ih =>
    intro acc
    by_cases hx : matchesKeyword x <;>
      simp [List.foldl_cons, List.any_cons, hx, ih]

theorem getTags_eq (l : List String) :
    getTags l = if l.any matchesKeyword then some "COVID-19" else none :=
  getTags_foldl l none

/-! ### C1: identity resolution -/

set_option maxRecDepth 100000 in
/-- C1: getId returns the sha field verbatim when it is non-empty and
otherwise the hexadecimal SHA-1 digest of the UTF-8 encoded title (hence
it is a deterministic function of those two fields); in particular a row
with no sha and title "COVID Study" yields exactly the SHA-1 hex digest
of the UTF-8 bytes of "COVID Study". -/
theorem getId_spec (row : MetaRow) :
    getId row = (if row.sha = "" then sha1Hex (utf8 row.title) else row.sha)
    ∧ getId ⟨"", "", "", "", "", "COVID Study", ""⟩ = sha1Hex (utf8 "COVID Study")
    ∧ getId ⟨"", "", "", "", "", "COVID Study", ""⟩ = "885480e7e4176d12bcd78170cdffd15c31b5dc03"
    ∧ getId ⟨"abc123", "", "", "", "", "COVID Study", ""⟩ = "abc123" := by
  refine ⟨?_, rfl, by decide, by decide⟩
  by_cases h : row.sha = "" <;> simp [getId, h]

set_option maxRecDepth 100000 in
/-- Sanity anchor for the SHA-1 embedding: the standard test vector. -/
theorem sha1Hex_abc : sha1Hex (utf8 "abc") = "a9993e364706816aba3e25717850c26c9cd0d89d" := by
  decide

set_option maxRecDepth 100000 in
/-- Sanity anchor for the SHA-1 embedding: digest of the empty message. -/
theorem sha1Hex_empty : sha1Hex (utf8 "") = "da39a3ee5e6b4b0d3255bfef95601890afd80709" := by
  decide

/-! ### C5: date parsing -/

/-- C5: getDate widens a bare all-digit 4-character publish time with
"-01-01" before handing it to the parser, maps a failed parse to an
absent date instead of an exception, and maps an empty publish time to an
absent date; concretely "2020" parses to January 1 2020 and "not-a-date"
parses to none. -/
theorem getDate_spec (s t : String) (h1 : pyIsDigit s = true) (h2 : s.length = 4)
    (h3 : parseDateutilE (widen t) = .error ()) :
    getDateStr s = (match parseDateutilE (s ++ "-01-01") with
                    | .ok d => some d
                    | .error _ => none)
    ∧ getDateStr t = none
    ∧ getDateStr "" = none
    ∧ getDateStr "2020" = some ⟨2020, 1, 1⟩
    ∧ getDateStr "not-a-date" = none
    ∧ getDate ⟨"", "", "2020", "", "", "", ""⟩ = some ⟨2020, 1, 1⟩ := by
  have hs : s ≠ "" := by
    intro he
    rw [he] at h1
    exact absurd h1 (by decide)
  have hw : widen s = s ++ "-01-01" := by simp [widen, h1, h2]
  refine ⟨?_, ?_, by decide, by decide, by decide, by decide⟩
  · simp [getDateStr, hs, hw]
  · by_cases ht : t = "" <;> simp [getDateStr, ht, h3]

/-- C5 witness: the theorem applied at "2020" and "not-a-date". -/
theorem getDate_spec_witness :
    getDateStr "2020" = (match parseDateutilE ("2020" ++ "-01-01") with
                         | .ok d => some d
                         | .error _ => none)
    ∧ getDateStr "not-a-date" = none
    ∧ getDateStr "" = none
    ∧ getDateStr "2020" = some ⟨2020, 1, 1⟩
    ∧ getDateStr "not-a-date" = none
    ∧ getDate ⟨"", "", "2020", "", "", "", ""⟩ = some ⟨2020, 1, 1⟩ :=
  getDate_spec "2020" "not-a-date" (by decide) (by decide) (by decide)

/-! ### C7: table creation -/

set_option maxRecDepth 100000 in
/-- C7 (code bug): the CREATE statement is idempotent ("IF NOT EXISTS"),
and a successful creation prints nothing and raises nothing; but when
db.execute fails, the except handler evaluates a string plus the
exception object, which itself raises TypeError — so create does
propagate an exception to its caller on the failure path, contradicting
the claim. -/
theorem create_handler_raises :
    createStmt ARTICLES "articles" =
      "CREATE TABLE IF NOT EXISTS articles (Id TEXT PRIMARY KEY, Source TEXT, " ++
        "Published DATETIME, Publication TEXT, Authors TEXT, Title TEXT, " ++
        "Tags TEXT, Reference TEXT)"
    ∧ create (fun _ => Except.ok ()) ARTICLES "articles" = ([], none)
    ∧ create (fun _ => Except.error "malformed schema") ARTICLES "articles" =
        ([createStmt ARTICLES "articles"], some PyExc.typeError)
    ∧ containsSub "IF NOT EXISTS".data (createStmt ARTICLES "articles").data = true := by
  refine ⟨by decide, rfl, rfl, by decide⟩

/-! ### C8: reference normalization -/

/-- C8: a non-empty DOI that starts with neither "http" nor "doi.org" is
prefixed with the resolver URL; a DOI already carrying either prefix
passes through unchanged; an empty DOI stays empty. -/
theorem getReference_spec (row : MetaRow) :
    getReference row = (if row.doi = "" then ""
                        else if pyStartsWith row.doi "http" || pyStartsWith row.doi "doi.org" then
                          row.doi
                        else "https://doi.org/" ++ row.doi)
    ∧ getReference ⟨"", "", "", "", "", "", "10.1234/xyz"⟩ = "https://doi.org/10.1234/xyz"
    ∧ getReference ⟨"", "", "", "", "", "", "https://doi.org/10.1/x"⟩ = "https://doi.org/10.1/x"
    ∧ getReference ⟨"", "", "", "", "", "", "doi.org/10.1/x"⟩ = "doi.org/10.1/x"
    ∧ getReference ⟨"", "", "", "", "", "", ""⟩ = "" := by
  refine ⟨?_, by decide, by decide, by decide, rfl⟩
  by_cases h1 : row.doi = ""
  · simp [getReference, h1]
  · by_cases h2 : pyStartsWith row.doi "http" = true <;>
      by_cases h3 : pyStartsWith row.doi "doi.org" = true <;>
      simp [getReference, h1, h2, h3]

/-! ### C9: author list normalization -/

/-- C9: a non-empty authors field containing the bracket character "["
is replaced by its quoted substrings joined with "; "; any other value
passes through unchanged; the spec's serialized-list example normalizes
to "Smith, J.; Doe, A.". -/
theorem getAuthors_spec (row : MetaRow) :
    getAuthors row = (if row.authors = "" then row.authors
                      else if containsSub "[".data row.authors.data then
                        joinSep "; " (findQuoted row.authors)
                      else row.authors)
    ∧ findQuoted authorsEx = ["Smith, J.", "Doe, A."]
    ∧ getAuthors ⟨"", "", "", "", authorsEx, "", ""⟩ = "Smith, J.; Doe, A."
    ∧ getAuthors ⟨"", "", "", "", "Smith J; Doe A", "", ""⟩ = "Smith J; Doe A" := by
  refine ⟨?_, by decide, by decide, by decide⟩
  by_cases h1 : row.authors = "" <;>
    by_cases h2 : containsSub "[".data row.authors.data <;>
    simp [getAuthors, h1, h2]

/-! ### Run-loop lemmas -/

theorem mkArticle_id (fs : FileSys) (dir : String) (r : MetaRow) :
    (mkArticle fs dir r).Id = getId r := rfl

theorem artIds_nil : artIds [] = [] := rfl

theorem artIds_cons_article (a : ArticleRow) (evs : List Event) :
    artIds (Event.art a :: evs) = a.Id :: artIds evs := rfl

theorem artIds_cons_section (s : SectionRow) (evs : List Event) :
    artIds (Event.sec s :: evs) = artIds evs := rfl

theorem artIds_mkSecEvents (uid : String) (tags : Option String) (ts : List String) (sid : Nat) :
    artIds (mkSecEvents sid uid tags ts) = [] := by
  simp [artIds, artRows_mkSecEvents]

theorem step_ok {fs : FileSys} {dir : String} {st : DBState} {r : MetaRow} {st' : DBState}
    (h : step fs dir st r = .ok st') :
    read fs dir (getId r) = .ok (bodyTexts fs dir (getId r)) ∧
    st' = insertSections (insertArticle st (mkArticle fs dir r)) (getId r)
            (getTags (rowTexts fs dir r)) (rowTexts fs dir r) := by
  unfold step at h
  cases hr : read fs dir (getId r) with
  | error e => simp only [hr] at h; exact Except.noConfusion h
  | ok body =>
    simp only [hr] at h
    injection h with h
    have hb : bodyTexts fs dir (getId r) = body := by simp [bodyTexts, hr]
    constructor
    · rw [hb]
    · rw [← h]
      simp [mkArticle, rowTexts, hb]

theorem step_error {fs : FileSys} {dir : String} (st : DBState) (r : MetaRow)
    (h : read fs dir (getId r) = .error ()) : step fs dir st r = .error () := by
  unfold step
  rw [h]

theorem mem_artIds (evs : List Event) (u : String) (h : u ∈ artIds evs) :
    ∃ (j : Nat) (a : ArticleRow), evs[j]? = some (Event.art a) ∧ a.Id = u := by
  induction evs with
  | nil => simp [artIds, artRows] at h
  | cons e evs ih =>
    cases e with
    | art a =>
      rw [artIds_cons_article] at h
      cases List.mem_cons.mp h with
      | inl he => exact ⟨0, a, by simp, he.symm⟩
      | inr hm =>
        obtain ⟨j, b, hj, hb⟩ := ih hm
        exact ⟨j + 1, b, by simpa using hj, hb⟩
    | sec s =>
      rw [artIds_cons_section] at h
      obtain ⟨j, b, hj, hb⟩ := ih h
      exact ⟨j + 1, b, by simpa using hj, hb⟩

theorem refOK_nil : refOK [] := by
  intro i s h
  simp at h

theorem refOK_extend (evs new : List Event) (hold : refOK evs)
    (hnew : ∀ s : SectionRow, Event.sec s ∈ new → s.Article ∈ artIds evs) :
    refOK (evs ++ new) := by
  intro i s hget
  by_cases hi : i < evs.length
  · rw [List.getElem?_append_left hi] at hget
    obtain ⟨j, a, hji, hja, hid⟩ := hold i s hget
    have hjlen : j < evs.length := by
      obtain ⟨hh, -⟩ := List.getElem?_eq_some_iff.mp hja
      exact hh
    exact ⟨j, a, hji, by rw [List.getElem?_append_left hjlen]; exact hja, hid⟩
  · push_neg at hi
    rw [List.getElem?_append_right hi] at hget
    obtain ⟨j, a, hja, hid⟩ := mem_artIds evs s.Article (hnew s (List.getElem?_mem hget))
    have hjlen : j < evs.length := by
      obtain ⟨hh, -⟩ := List.getElem?_eq_some_iff.mp hja
      exact hh
    refine ⟨j, a, by omega, by rw [List.getElem?_append_left hjlen]; exact hja, hid⟩

theorem refOK_insertArticle (st : DBState) (a : ArticleRow) (hold : refOK st.events) :
    refOK (insertArticle st a).events := by
  rw [insertArticle_events]
  apply refOK_extend _ _ hold
  intro s hs
  split at hs <;> simp at hs

theorem artIds_insertArticle_self (st : DBState) (a : ArticleRow) :
    a.Id ∈ artIds (insertArticle st a).events := by
  rw [insertArticle_events, artIds_append]
  by_cases hdup : a.Id ∈ artIds st.events
  · simp [hdup]
  · simp [hdup, artIds_cons_article]

theorem step_refOK {fs : FileSys} {dir : String} {st : DBState} {r : MetaRow} {st' : DBState}
    (h : step fs dir st r = .ok st') (hold : refOK st.events) : refOK st'.events := by
  obtain ⟨-, hst⟩ := step_ok h
  rw [hst, insertSections_eq]
  apply refOK_extend
  · exact refOK_insertArticle st (mkArticle fs dir r) hold
  · intro s hs
    rw [sec_mem_mkSecEvents _ _ _ s _ hs, ← mkArticle_id fs dir r]
    exact artIds_insertArticle_self st (mkArticle fs dir r)

theorem runRows_refOK (fs : FileSys) (dir : String) :
    ∀ (rows : List MetaRow) (st st' : DBState),
      refOK st.events → runRows fs dir st rows = .ok st' → refOK st'.events := by
  intro rows
  induction rows with
  | nil =>
    intro st st' h0 h
    simp only [runRows] at h
    injection h with h
    rw [← h]
    exact h0
  | cons r rs ih =>
    intro st st' h0 h
    simp only [runRows] at h
    cases hs : step fs dir st r with
    | error e => simp only [hs] at h; exact Except.noConfusion h
    | ok st1 =>
      simp only [hs] at h
      exact ih st1 st' (step_refOK hs h0) h

theorem runRows_secs (fs : FileSys) (dir : String) :
    ∀ (rows : List MetaRow) (st st' : DBState),
      runRows fs dir st rows = .ok st' →
      secRows st'.events = secRows st.events ++ secsFrom fs dir st.sid rows ∧
        st'.sid = st.sid + sumTexts fs dir rows := by
  intro rows
  induction rows with
  | nil =>
    intro st st' h
    simp only [runRows] at h
    injection h with h
    rw [← h]
    simp [secsFrom, sumTexts]
  | cons r rs ih =>
    intro st st' h
    simp only [runRows] at h
    cases hs : step fs dir st r with
    | error e => simp only [hs] at h; exact Except.noConfusion h
    | ok st1 =>
      simp only [hs] at h
      obtain ⟨-, hst1⟩ := step_ok hs
      obtain ⟨h1, h2⟩ := ih st1 st' h
      rw [hst1, insertSections_eq] at h1 h2
      constructor
      · rw [h1]
        simp only [secRows_append, secRows_insertArticle, secRows_mkSecEvents,
          insertArticle_sid]
        simp [secsFrom, List.append_assoc]
      · rw [h2]
        simp only [insertArticle_sid]
        simp [sumTexts]
        omega

theorem secsFrom_map_id (fs : FileSys) (dir : String) (rows : List MetaRow) :
    ∀ sid : Nat, (secsFrom fs dir sid rows).map SectionRow.Id =
      List.range' sid (sumTexts fs dir rows) := by
  induction rows with
  | nil => intro sid; simp [secsFrom, sumTexts]
  | cons r rs ih => intro sid; simp [secsFrom, sumTexts, mkSecs_map_id, ih, Nat.add_comm]

theorem secsFrom_map_pair (fs : FileSys) (dir : String) (rows : List MetaRow) :
    ∀ sid : Nat, (secsFrom fs dir sid rows).map (fun s => (s.Article, s.Text)) =
      (rows.map (rowSecs fs dir)).flatten := by
  induction rows with
  | nil => intro sid; simp [secsFrom]
  | cons r rs ih => intro sid; simp [secsFrom, mkSecs_map_pair, rowSecs, ih]

/-! ### C2: section ids, insertion order, referential integrity -/

/-- C2: on any completed run, the persisted section rows carry ids
0, 1, 2, ... in insertion order (one global counter, one increment per
persisted section row, never reset per article); the (article, text)
pairs of the section rows are exactly the per-metadata-row blocks, title
section first then body sections in document order, in input row order;
and every section insert is preceded by an article insert whose id the
section references. -/
theorem run_section_invariants (fs : FileSys) (dir : String) (rows : List MetaRow)
    (st : DBState) (h : run fs dir rows = .ok st) :
    (secRows st.events).map SectionRow.Id = List.range' 0 st.sid
    ∧ (secRows st.events).map (fun s => (s.Article, s.Text)) =
        (rows.map (rowSecs fs dir)).flatten
    ∧ refOK st.events := by
  obtain ⟨h1, h2⟩ := runRows_secs fs dir rows ⟨[], 0⟩ st h
  refine ⟨?_, ?_, runRows_refOK fs dir rows ⟨[], 0⟩ st refOK_nil h⟩
  · rw [h1]
    simp only [secRows_nil, List.nil_append]
    rw [secsFrom_map_id, h2]
    simp
  · rw [h1]
    simp only [secRows_nil, List.nil_append]
    exact secsFrom_map_pair fs dir rows 0

set_option maxRecDepth 1000000 in
/-- C2 witness: the theorem applied to a concrete two-row corpus with one
two-paragraph side-car file. -/
theorem run_section_invariants_witness :
    (secRows stW.events).map SectionRow.Id = List.range' 0 stW.sid
    ∧ (secRows stW.events).map (fun s => (s.Article, s.Text)) =
        ([rowW1, rowW2].map (rowSecs fsW "corpus")).flatten
    ∧ refOK stW.events :=
  run_section_invariants fsW "corpus" [rowW1, rowW2] stW (by decide)

/-! ### C3: side-car reading -/

set_option maxRecDepth 1000000 in
/-- C3 counterexample: a corpus whose first row has an existing but
malformed side-car file.  read raises, and the whole run aborts with the
uncaught exception instead of continuing with the remaining row. -/
theorem read_malformed_aborts_run :
    fsBad "d/articles/s1.json" = some SideCar.malformed
    ∧ read fsBad "d" "s1" = .error ()
    ∧ run fsBad "d" [rowBad, rowGood] = .error () :=
  ⟨rfl, by decide, by decide⟩

/-- C3 amended: read returns the empty sequence when the side-car file
does not exist; but when the file exists and is malformed the parse
exception propagates out of read uncaught and aborts the whole run (the
failure is not confined to the single row). -/
theorem read_missing_empty_and_malformed_fatal (fs : FileSys) (dir uid : String)
    (st : DBState) (r : MetaRow) (rs : List MetaRow)
    (hmiss : fs (articlePath dir uid) = none)
    (hmal : read fs dir (getId r) = .error ()) :
    read fs dir uid = .ok [] ∧ runRows fs dir st (r :: rs) = .error () := by
  constructor
  · unfold read
    split
    · rw [hmiss]
    · rfl
  · simp only [runRows]
    rw [step_error st r hmal]

set_option maxRecDepth 1000000 in
/-- C3 witness for the amended statement. -/
theorem read_missing_empty_and_malformed_fatal_witness :
    read fsBad "d" "absent" = .ok [] ∧ runRows fsBad "d" ⟨[], 0⟩ [rowBad, rowGood] = .error () :=
  read_missing_empty_and_malformed_fatal fsBad "d" "absent" ⟨[], 0⟩ rowBad [rowGood]
    (by decide) (by decide)

/-! ### C4: tag detection and propagation -/

/-- C4: getTags returns the single fixed label exactly when some section
text, lower-cased, contains one of the fixed keyword markers (which are
themselves lower-case, so the comparison is case-insensitive on both
sides); one loop pass stores that same tag value on the article row it
builds and on every section row it inserts, and stores the absent tag
the same way when no section matches. -/
theorem getTags_propagation (fs : FileSys) (dir : String) (st st' : DBState) (r : MetaRow)
    (t : String) (h : step fs dir st r = .ok st') :
    st'.events = st.events ++ stepEvents fs dir st r
    ∧ (stepEvents fs dir st r).all (fun e => eventTags e == getTags (rowTexts fs dir r)) = true
    ∧ (mkArticle fs dir r).Tags = getTags (rowTexts fs dir r)
    ∧ getTags (rowTexts fs dir r) =
        (if (rowTexts fs dir r).any matchesKeyword then some "COVID-19" else none)
    ∧ matchesKeyword t = keywords.any (fun k => containsSub (pyLower k).data (pyLower t).data) := by
  obtain ⟨-, hst⟩ := step_ok h
  refine ⟨?_, ?_, rfl, getTags_eq _, ?_⟩
  · rw [hst, insertSections_eq]
    simp only [insertArticle_events, insertArticle_sid, mkArticle_id]
    simp [stepEvents, mkArticle_id, List.append_assoc]
  · unfold stepEvents
    rw [List.all_append]
    have h2 := mkSecEvents_all_tags (getId r) (getTags (rowTexts fs dir r)) (rowTexts fs dir r) st.sid
    rw [h2]
    split <;> simp [eventTags, mkArticle]
  · have k1 : pyLower "2019-ncov" = "2019-ncov" := by decide
    have k2 : pyLower "covid-19" = "covid-19" := by decide
    have k3 : pyLower "sars-cov-2" = "sars-cov-2" := by decide
    simp [matchesKeyword, keywords, k1, k2, k3]

set_option maxRecDepth 1000000 in
/-- C4 witness: one row whose title contains a marker in mixed case. -/
theorem getTags_propagation_witness :
    stTag.events = (⟨[], 0⟩ : DBState).events ++ stepEvents (fun _ => none) "d" ⟨[], 0⟩ rowTag
    ∧ (stepEvents (fun _ => none) "d" ⟨[], 0⟩ rowTag).all
        (fun e => eventTags e == getTags (rowTexts (fun _ => none) "d" rowTag)) = true
    ∧ (mkArticle (fun _ => none) "d" rowTag).Tags = getTags (rowTexts (fun _ => none) "d" rowTag)
    ∧ getTags (rowTexts (fun _ => none) "d" rowTag) =
        (if (rowTexts (fun _ => none) "d" rowTag).any matchesKeyword then some "COVID-19" else none)
    ∧ matchesKeyword "the sars-cov-2 sample" =
        keywords.any (fun k => containsSub (pyLower k).data (pyLower "the sars-cov-2 sample").data) :=
  getTags_propagation (fun _ => none) "d" ⟨[], 0⟩ stTag rowTag "the sars-cov-2 sample" (by decide)

/-! ### C6: schema-driven type coercion -/

theorem values_ok_get (table : List (String × String)) :
    ∀ (cols : List String) (row out : List Value) (i : Nat),
      values table row cols = .ok out → i < cols.length →
      ∃ desc v, lookupD table (cols.getD i "") = .ok desc ∧ row[i]? = some v ∧
        coerceVal desc v = .ok (out.getD i Value.vnull) ∧
        out[i]? = some (out.getD i Value.vnull) := by
  intro cols
  induction cols with
  | nil => intro row out i h hi; simp at hi
  | cons c cs ih =>
    intro row out i h hi
    cases row with
    | nil => simp only [values] at h; exact Except.noConfusion h
    | cons v vs =>
      simp only [values] at h
      cases hl : lookupD table c with
      | error e => simp only [hl] at h; exact Except.noConfusion h
      | ok desc =>
        simp only [hl] at h
        cases hcv : coerceVal desc v with
        | error e => simp only [hcv] at h; exact Except.noConfusion h
        | ok w =>
          simp only [hcv] at h
          cases hrec : values table vs cs with
          | error e => simp only [hrec] at h; exact Except.noConfusion h
          | ok ws =>
            simp only [hrec] at h
            injection h with h
            rw [← h]
            cases i with
            | zero => exact ⟨desc, v, by simpa using hl, by simp, by simpa using hcv, by simp⟩
            | succ i =>
              have hi' : i < cs.length := by simpa using hi
              obtain ⟨desc', v', hd, hv, hc, ho⟩ := ih vs ws i hrec hi'
              exact ⟨desc', v', by simpa using hd, by simpa using hv, by simpa using hc,
                by simpa using ho⟩

/-- C6: the values loop looks each column's descriptor up in the schema
and coerces the positionally matching row value with it — INTEGER-prefix
columns coerce falsy (empty/missing/zero) values to 0 and otherwise
apply the integer conversion, BOOLEAN columns map exactly the string
"TRUE" to 1 and everything else to 0, and every other column passes its
value through unchanged, None included. -/
theorem values_spec (table : List (String × String)) (row : List Value) (cols : List String)
    (out : List Value) (i : Nat) (desc : String) (v : Value)
    (h : values table row cols = .ok out) (hi : i < cols.length)
    (hdesc : lookupD table (cols.getD i "") = .ok desc) (hv : row[i]? = some v) :
    coerceVal desc v = .ok (out.getD i Value.vnull)
    ∧ out[i]? = some (out.getD i Value.vnull)
    ∧ coerceVal "INTEGER PRIMARY KEY" (Value.vstr "") = .ok (Value.vint 0)
    ∧ coerceVal "INTEGER" Value.vnull = .ok (Value.vint 0)
    ∧ coerceVal "INTEGER" (Value.vint 7) = .ok (Value.vint 7)
    ∧ coerceVal "INTEGER" (Value.vstr "12") = .ok (Value.vint 12)
    ∧ coerceVal "BOOLEAN" (Value.vstr "TRUE") = .ok (Value.vint 1)
    ∧ coerceVal "BOOLEAN" (Value.vstr "FALSE") = .ok (Value.vint 0)
    ∧ coerceVal "BOOLEAN" Value.vnull = .ok (Value.vint 0)
    ∧ coerceVal "TEXT" Value.vnull = .ok Value.vnull
    ∧ coerceVal "DATETIME" (Value.vdate ⟨2020, 1, 1⟩) = .ok (Value.vdate ⟨2020, 1, 1⟩)
    ∧ coerceVal "TEXT" (Value.vstr "x") = .ok (Value.vstr "x") := by
  obtain ⟨desc', v', hd, hv', hc, ho⟩ := values_ok_get table cols row out i h hi
  rw [hdesc] at hd
  injection hd with hd
  rw [hv] at hv'
  injection hv' with hv'
  rw [← hd, ← hv'] at hc
  exact ⟨hc, ho, by decide, by decide, by decide, by decide, by decide, by decide, by decide,
    by decide, by decide, by decide⟩

/-- C6 witness: the sections schema applied to a concrete row. -/
theorem values_spec_witness :
    coerceVal "INTEGER PRIMARY KEY" (Value.vint 0) =
      .ok (([Value.vint 0, Value.vstr "u", Value.vstr "txt", Value.vnull]).getD 0 Value.vnull)
    ∧ ([Value.vint 0, Value.vstr "u", Value.vstr "txt", Value.vnull])[0]? =
        some (([Value.vint 0, Value.vstr "u", Value.vstr "txt", Value.vnull]).getD 0 Value.vnull)
    ∧ coerceVal "INTEGER PRIMARY KEY" (Value.vstr "") = .ok (Value.vint 0)
    ∧ coerceVal "INTEGER" Value.vnull = .ok (Value.vint 0)
    ∧ coerceVal "INTEGER" (Value.vint 7) = .ok (Value.vint 7)
    ∧ coerceVal "INTEGER" (Value.vstr "12") = .ok (Value.vint 12)
    ∧ coerceVal "BOOLEAN" (Value.vstr "TRUE") = .ok (Value.vint 1)
    ∧ coerceVal "BOOLEAN" (Value.vstr "FALSE") = .ok (Value.vint 0)
    ∧ coerceVal "BOOLEAN" Value.vnull = .ok (Value.vint 0)
    ∧ coerceVal "TEXT" Value.vnull = .ok Value.vnull
    ∧ coerceVal "DATETIME" (Value.vdate ⟨2020, 1, 1⟩) = .ok (Value.vdate ⟨2020, 1, 1⟩)
    ∧ coerceVal "TEXT" (Value.vstr "x") = .ok (Value.vstr "x") :=
  values_spec SECTIONS [Value.vint 0, Value.vstr "u", Value.vstr "txt", Value.vnull]
    ["Id", "Article", "Text", "Tags"] [Value.vint 0, Value.vstr "u", Value.vstr "txt", Value.vnull]
    0 "INTEGER PRIMARY KEY" (Value.vint 0) (by decide) (by decide) (by decide) (by decide)

/-! ### C10: swallowed article-insert failure and orphaned sections -/

/-- C10: when two metadata rows resolve to the same id, the second
article insert fails on the primary-key collision, insert catches the
exception, and the loop still inserts all of the second row's section
rows carrying the colliding id — the finished store has a single article
row but both rows' sections. -/
theorem insert_collision_orphan_sections (fs : FileSys) (dir : String) (r1 r2 : MetaRow)
    (st : DBState) (hid : getId r1 = getId r2) (h : run fs dir [r1, r2] = .ok st) :
    (artRows st.events).map ArticleRow.Id = [getId r1]
    ∧ (secRows st.events).map (fun s => (s.Article, s.Text)) =
        rowSecs fs dir r1 ++ rowSecs fs dir r2
    ∧ st.sid = (rowTexts fs dir r1).length + (rowTexts fs dir r2).length := by
  obtain ⟨h1, h2⟩ := runRows_secs fs dir [r1, r2] ⟨[], 0⟩ st h
  refine ⟨?_, ?_, ?_⟩
  · unfold run at h
    simp only [runRows] at h
    cases hs1 : step fs dir ⟨[], 0⟩ r1 with
    | error e => simp only [hs1] at h; exact Except.noConfusion h
    | ok st1 =>
      simp only [hs1] at h
      cases hs2 : step fs dir st1 r2 with
      | error e => simp only [hs2] at h; exact Except.noConfusion h
      | ok st2 =>
        simp only [hs2] at h
        injection h with h
        obtain ⟨-, e1⟩ := step_ok hs1
        obtain ⟨-, e2⟩ := step_ok hs2
        have hst1 : artIds st1.events = [getId r1] := by
          rw [e1, insertSections_eq]
          simp only [insertArticle_events, artIds_append, artIds_mkSecEvents,
            mkArticle_id, artIds_nil]
          simp [artIds_cons_article, mkArticle_id, artIds_nil]
        have hdup : (mkArticle fs dir r2).Id ∈ artIds st1.events := by
          rw [mkArticle_id, hst1, ← hid]
          exact List.mem_singleton.mpr rfl
        rw [← h, e2, insertSections_eq]
        simp only [insertArticle_events, hdup, if_pos, artRows_append, artRows_mkSecEvents,
          List.append_nil]
        rw [e1, insertSections_eq]
        simp only [insertArticle_events, artRows_append, artRows_mkSecEvents, List.append_nil]
        simp [artRows_cons_article, mkArticle_id, artIds_nil, artRows_nil]
  · rw [h1]
    simp only [secRows_nil, List.nil_append]
    have hp := secsFrom_map_pair fs dir [r1, r2] 0
    simpa using hp
  · rw [h2]
    simp [sumTexts]

set_option maxRecDepth 1000000 in
/-- C10 witness: two rows with the same explicit sha. -/
theorem insert_collision_orphan_sections_witness :
    (artRows stDup.events).map ArticleRow.Id = [getId rowDup1]
    ∧ (secRows stDup.events).map (fun s => (s.Article, s.Text)) =
        rowSecs (fun _ => none) "d" rowDup1 ++ rowSecs (fun _ => none) "d" rowDup2
    ∧ stDup.sid = (rowTexts (fun _ => none) "d" rowDup1).length +
        (rowTexts (fun _ => none) "d" rowDup2).length :=
  insert_collision_orphan_sections (fun _ => none) "d" rowDup1 rowDup2 stDup rfl (by decide)

end Cord19
